import Mathlib

/-!
Shallow embedding of the Icestorm VM (iceberg-go/icestorm.go): the typed
value model, the operand classifier `conv_arg`, the line tokenizer
`parse_args`, the assembler (`parse_oneline`, `set_labels`, `parse_script`,
`Gen_bytecode`), the argument resolver (`Get_argument`, `Get_baresymbol`),
the variable store (`itoentity`, `Assign_var`), all built-in instruction
handlers and the dispatch loop `Run`.

Modelling conventions:
* Go `int64` is modelled as `Int`; the only place range matters is
  `strconv.ParseInt`, whose explicit 64-bit range check is kept.
* Go `float64` is modelled as `ℚ` (exact rationals).  No claim below
  depends on IEEE-754 rounding; `math.Pow` with a non-integer exponent
  and `strconv.FormatFloat` shortest-round-trip output are outside the
  rational model and are stubbed with a comment at their definition.
* Go maps are modelled as functions to `Option`, with later insertions
  shadowing earlier ones, matching Go map assignment.
* `os.Exit` on `compile_error`/`Runtime_error` is modelled by the
  `Except` monad with an `Err` payload; a Go runtime panic (integer
  divide by zero, slice index out of range, nil function call) is the
  distinct `Err.gopanic` constructor, since it is a crash the VM never
  raises itself.
-/

namespace Icestorm

/-- Iceberg type tags (bitmask-assignable), from the `T_*` constants. -/
def T_UNDET : Nat := 0

def T_INT : Nat := 1

def T_FLOAT : Nat := 2

def T_BOOL : Nat := 4

def T_STR : Nat := 8

def T_LABEL : Nat := 16

def T_ANY : Nat := 31

/-- The `Entity` value: the source stores a little-endian byte payload plus a
type tag; decoding always reproduces the stored scalar, so the payload is
modelled directly as the decoded scalar of each kind. -/
inductive Value where
  | vint (i : Int)
  | vfloat (q : ℚ)
  | vbool (b : Bool)
  | vstr (s : String)
  | vlabel (s : String)
  | vundet (s : String)
deriving DecidableEq, Repr

/-- `Entity.E_type` of each variant. -/
def Value.etype : Value → Nat
  | .vint _ => T_INT
  | .vfloat _ => T_FLOAT
  | .vbool _ => T_BOOL
  | .vstr _ => T_STR
  | .vlabel _ => T_LABEL
  | .vundet _ => T_UNDET

/-- Errors: `compile` models `compile_error` (prints, `os.Exit(1)`),
`runtime` models `Runtime_error`, `gopanic` models a Go runtime panic. -/
inductive Err where
  | compile (msg : String)
  | runtime (msg : String)
  | gopanic (msg : String)
deriving DecidableEq, Repr

/-- An instruction: mnemonic and operand list. -/
structure Instruction where
  Inst : String
  Args : List Value
deriving DecidableEq, Repr

/-- `map[string]int64` label table, later insertion shadowing earlier. -/
def LabelTable : Type := String → Option Nat

/-- `map[string]Entity` variable table. -/
def VarTable : Type := String → Option Value

/-- Go map assignment `m[k] = v`. -/
def tupdate {α : Type} (m : String → Option α) (k : String) (v : α) :
    String → Option α :=
  fun k' => if k' = k then some v else m k'

/-- The empty map. -/
def tempty {α : Type} : String → Option α := fun _ => none

def dquoteC : Char := Char.ofNat 34

def squoteC : Char := Char.ofNat 39

/-- `strings.IndexRune(s, c) == 0`: the string begins with the character. -/
def headIs (s : String) (c : Char) : Bool :=
  match s.toList with
  | [] => false
  | c0 :: _ => c0 = c

/-- ASCII lower-casing of one character (the classifier only compares
against ASCII words, so `strings.ToLower` is needed on ASCII only). -/
def lowerC (c : Char) : Char :=
  if 65 ≤ c.toNat ∧ c.toNat ≤ 90 then Char.ofNat (c.toNat + 32) else c

/-- ASCII `strings.ToLower`. -/
def asciiLower (s : String) : String := String.mk (s.toList.map lowerC)

/-- Decimal digits of a natural number; the first argument is fuel
(`n + 1` always suffices, one unit per digit). -/
def natToDigitsAux : Nat → Nat → List Char
  | 0, _ => []
  | fuel + 1, n =>
    if n < 10 then [Char.ofNat (48 + n)]
    else natToDigitsAux fuel (n / 10) ++ [Char.ofNat (48 + n % 10)]

/-- Base-10 rendering of a natural number. -/
def go_formatNat (n : Nat) : String := String.mk (natToDigitsAux (n + 1) n)

/-- `strings.Split(s, "\n")`, accumulator-based. -/
def splitLinesAux : List Char → List Char → List (List Char)
  | [], cur => [cur.reverse]
  | c :: rest, cur =>
    if c = '\n' then cur.reverse :: splitLinesAux rest []
    else splitLinesAux rest (c :: cur)

/-- Split a string on newlines. -/
def splitLines (s : String) : List String :=
  (splitLinesAux s.toList []).map String.mk

/-- Digit run to a natural number, base 10. -/
def digitsToNat (cs : List Char) : Nat :=
  cs.foldl (fun a c => a * 10 + (c.toNat - 48)) 0

/-- `strconv.ParseInt(s, 10, 64)` success: optional sign, a nonempty digit
run, and the value within the signed 64-bit range (out-of-range input
returns a non-nil error in Go, so classification moves on). -/
def go_parseInt (s : String) : Option Int :=
  let p : Bool × List Char :=
    match s.toList with
    | '+' :: r => (false, r)
    | '-' :: r => (true, r)
    | r => (false, r)
  if p.2.isEmpty || !(p.2.all Char.isDigit) then none
  else
    let n : Int := (if p.1 then -1 else 1) * (digitsToNat p.2 : Int)
    if -(2 ^ 63) ≤ n ∧ n ≤ 2 ^ 63 - 1 then some n else none

/-- `strconv.ParseFloat(s, 64)`: optional sign, digits with an optional
fractional part (at least one digit overall), and an optional decimal
exponent; `inf`/`infinity`/`nan` (any case, optional sign) also parse, and
their non-finite values are outside the rational model (stubbed as `0`;
no claim below reads a non-finite literal's payload).  Hexadecimal floats,
digit-grouping underscores and the overflow/underflow `ErrRange` cases are
not modelled; no claim depends on them. -/
def go_parseFloat (s : String) : Option ℚ :=
  let low := asciiLower s
  if low = "inf" || low = "+inf" || low = "-inf" || low = "infinity" ||
      low = "+infinity" || low = "-infinity" || low = "nan" ||
      low = "+nan" || low = "-nan" then
    some 0
  else
    let p : Bool × List Char :=
      match s.toList with
      | '+' :: r => (false, r)
      | '-' :: r => (true, r)
      | r => (false, r)
    let ipSplit := p.2.span Char.isDigit
    let dotSplit : List Char × List Char :=
      match ipSplit.2 with
      | c :: rest => if c = '.' then rest.span Char.isDigit else ([], ipSplit.2)
      | [] => ([], [])
    if ipSplit.1.isEmpty && dotSplit.1.isEmpty then none
    else
      let expRes : Option Int :=
        match dotSplit.2 with
        | [] => some 0
        | c :: rest =>
          if c = 'e' || c = 'E' then
            let ep : Bool × List Char :=
              match rest with
              | '+' :: r => (false, r)
              | '-' :: r => (true, r)
              | r => (false, r)
            let ds := ep.2.span Char.isDigit
            if ds.1.isEmpty || !ds.2.isEmpty then none
            else some ((if ep.1 then -1 else 1) * (digitsToNat ds.1 : Int))
          else none
      match expRes with
      | none => none
      | some e =>
        let mant : ℚ :=
          (digitsToNat ipSplit.1 : ℚ) +
            (digitsToNat dotSplit.1 : ℚ) / ((10 : ℚ) ^ dotSplit.1.length)
        let v : ℚ := mant * (10 : ℚ) ^ e
        some (if p.1 then -v else v)

/-- The operand classifier `conv_arg`: leading `@` is a LABEL (sigil kept),
a leading quote is a STR with first and last byte stripped, `true`/`false`
are BOOL, then a ParseInt attempt (INT), a ParseFloat attempt (FLOAT),
anything else UNDET carrying the raw token. -/
def conv_arg (s : String) : Value :=
  if headIs s '@' then .vlabel s
  else if headIs s dquoteC || headIs s squoteC then
    .vstr (String.mk ((s.toList.drop 1).dropLast))
  else if s = "true" || s = "false" then .vbool (s = "true")
  else
    match go_parseInt s with
    | some i => .vint i
    | none =>
      match go_parseFloat s with
      | some q => .vfloat q
      | none => .vundet s

/-- Tokenizer state of `parse_args`: emitted args, the token buffer, the two
quote flags and the just-closed-a-quoted-token flag (source name kept). -/
structure TokState where
  args : List Value
  buf : List Char
  d_quote : Bool
  s_quote : Bool
  after_parentheses : Bool
deriving DecidableEq, Repr

/-- One byte of the `parse_args` loop body. -/
def parse_args_step (st : TokState) (c : Char) : Except Err TokState :=
  if st.d_quote then
    if c = dquoteC then
      .ok { st with
              args := st.args ++ [conv_arg (String.mk (st.buf ++ [dquoteC]))],
              buf := [], d_quote := false, after_parentheses := true }
    else .ok { st with buf := st.buf ++ [c] }
  else if st.s_quote then
    if c = squoteC then
      .ok { st with
              args := st.args ++ [conv_arg (String.mk (st.buf ++ [squoteC]))],
              buf := [], s_quote := false, after_parentheses := true }
    else .ok { st with buf := st.buf ++ [c] }
  else
    if c = ',' then
      if !st.after_parentheses then
        .ok { st with args := st.args ++ [conv_arg (String.mk st.buf)], buf := [] }
      else .ok { st with after_parentheses := false }
    else if c = dquoteC then
      if !st.buf.isEmpty then
        .error (.compile "Syntax ERROR: Expected , before \x22")
      else .ok { st with buf := [dquoteC], d_quote := true }
    else if c = squoteC then
      if !st.buf.isEmpty then
        .error (.compile "Syntax ERROR: Expected , before \x27")
      else .ok { st with buf := [squoteC], s_quote := true }
    else if c ≠ ' ' then
      if !st.after_parentheses then .ok { st with buf := st.buf ++ [c] }
      else .ok st
    else .ok st

/-- `parse_args`: run the loop body over the line, flush a nonempty buffer,
then fail on an unterminated quote. -/
def parse_args (line : String) : Except Err (List Value) := do
  let st ← line.toList.foldlM parse_args_step ⟨[], [], false, false, false⟩
  let args :=
    if !st.buf.isEmpty then st.args ++ [conv_arg (String.mk st.buf)] else st.args
  if st.d_quote then .error (.compile "Syntax ERROR: Missing \x22")
  else if st.s_quote then .error (.compile "Syntax ERROR: Missing \x27")
  else pure args

/-- `chk_nargs`: compile error unless the count matches the expected arity. -/
def chk_nargs (n expected : Nat) : Except Err Unit :=
  if expected < n then
    .error (.compile ("Syntax ERROR: Too many arguments(" ++ go_formatNat expected ++
      " expected but " ++ go_formatNat n ++ " given)"))
  else if n < expected then
    .error (.compile ("Syntax ERROR: Too few arguments(" ++ go_formatNat expected ++
      " expected but " ++ go_formatNat n ++ " given)"))
  else .ok ()

/-- The arity column of the default `Inst_table` installed by `Init`
(handlers themselves are dispatched by mnemonic in `exec_inst` below). -/
def default_inst_table (s : String) : Option Nat :=
  if s = "nop" then some 0
  else if s = "let" then some 2
  else if s = "add" then some 3
  else if s = "sub" then some 3
  else if s = "mul" then some 3
  else if s = "div" then some 3
  else if s = "div_r" then some 3
  else if s = "mod" then some 3
  else if s = "pow" then some 3
  else if s = "cmp" then some 4
  else if s = "and" then some 3
  else if s = "or" then some 3
  else if s = "xor" then some 3
  else if s = "not" then some 2
  else if s = "int" then some 2
  else if s = "float" then some 2
  else if s = "bool" then some 2
  else if s = "str" then some 2
  else if s = "cat" then some 3
  else if s = "goto" then some 1
  else if s = "when" then some 2
  else if s = "dump" then some 0
  else none

/-- `parse_oneline`: a line without a space is a zero-operand instruction, a
label definition, or empty; otherwise the first space splits mnemonic from
operand text, which is tokenized and arity-checked. -/
def parse_oneline (tbl : String → Option Nat) (line : String)
    (program : List Instruction) : Except Err (List Instruction) :=
  if !(line.toList.contains ' ') then
    match tbl line with
    | some na => do
      chk_nargs 0 na
      pure (program ++ [⟨line, []⟩])
    | none =>
      if headIs line '@' then pure (program ++ [⟨line, []⟩])
      else if line ≠ "" then
        .error (.compile ("Syntax ERROR: Unknown instruction " ++ line))
      else pure program
  else
    let sp := line.toList.span (fun c => c ≠ ' ')
    let instr := String.mk sp.1
    let rest := String.mk (sp.2.drop 1)
    match tbl instr with
    | some na => do
      let args ← parse_args rest
      chk_nargs args.length na
      pure (program ++ [⟨instr, args⟩])
    | none =>
      if headIs instr '@' then
        .error (.compile "Syntax ERROR: Expected newline after label definition")
      else .error (.compile ("Syntax ERROR: Unknown instruction " ++ instr))

/-- The label-table half of the `set_labels` loop: each instruction whose
mnemonic begins with `@` is recorded at its index (a later duplicate
overwrites an earlier one, as Go map assignment does). -/
def set_labels_table : List Instruction → Nat → LabelTable → LabelTable
  | [], _, tbl => tbl
  | ins :: rest, i, tbl =>
    if headIs ins.Inst '@' then
      set_labels_table rest (i + 1) (tupdate tbl ins.Inst i)
    else set_labels_table rest (i + 1) tbl

/-- `set_labels`: the single Go loop both collects the label table and
rewrites every label-defining position to `nop`; the two effects are
independent, so they are modelled as a map plus a table pass. -/
def set_labels (program : List Instruction) : List Instruction × LabelTable :=
  (program.map (fun ins =>
      if headIs ins.Inst '@' then { ins with Inst := "nop" } else ins),
   set_labels_table program 0 tempty)

/-- `TrimLeftFunc` predicate used by `parse_script`. -/
def trimLeadC (c : Char) : Bool := c = '\n' || c = '\t' || c = ' '

/-- `parse_script`: split on newlines, left-trim each line, parse line by
line, then run the label pass. -/
def parse_script (tbl : String → Option Nat) (script : String) :
    Except Err (List Instruction × LabelTable) := do
  let lines := splitLines script
  let prog ← lines.foldlM
    (fun prog line =>
      parse_oneline tbl (String.mk (line.toList.dropWhile trimLeadC)) prog) []
  pure (set_labels prog)

/-- The compiled program. -/
structure Bytecode where
  inst_list : List Instruction
  label_table : LabelTable

/-- `Gen_bytecode`. -/
def Gen_bytecode (tbl : String → Option Nat) (script : String) :
    Except Err Bytecode :=
  match parse_script tbl script with
  | .error e => .error e
  | .ok p => .ok ⟨p.1, p.2⟩

/-- VM state: program counter, label table, variable table; warnings
(`Runtime_warning` output) are collected rather than printed. -/
structure VMState where
  exec_pos : Nat
  label_table : LabelTable
  var_table : VarTable
  warnings : List String

/-- `Get_argument`, fuelled: an UNDET operand is a symbol reference, looked
up and resolved recursively with the same mask; then the mask is enforced
and the decoded scalar (here the `Value` itself) returned with its type.
Variable-table entries are written only through `itoentity`, which never
produces UNDET, so in every reachable state resolution stops after one
indirection; fuel exhaustion models the stack overflow an UNDET cycle
would cause in Go. -/
def Get_argument_rec : Nat → VarTable → Value → Nat → Except Err (Value × Nat)
  | 0, _, _, _ => .error (.gopanic "stack overflow")
  | fuel + 1, vt, arg, mask =>
    match arg with
    | .vundet s =>
      match vt s with
      | none => .error (.runtime ("Argument ERROR: Unbound symbol " ++ s))
      | some v => Get_argument_rec fuel vt v mask
    | v =>
      if v.etype &&& mask = 0 then .error (.runtime "Type ERROR: Type mismatch")
      else .ok (v, v.etype)

/-- `Get_argument` with enough fuel for every reachable state. -/
def Get_argument (vt : VarTable) (arg : Value) (mask : Nat) :
    Except Err (Value × Nat) :=
  Get_argument_rec 8 vt arg mask

/-- `Get_baresymbol`: the destination operand must be a raw UNDET symbol. -/
def Get_baresymbol (v : Value) : Except Err String :=
  match v with
  | .vundet s => .ok s
  | _ => .error (.runtime "Type ERROR: Type mismatch")

/-- The host scalars `Assign_var` accepts (`interface{}` values of the four
kinds `itoentity` encodes). -/
inductive HostVal where
  | hint (i : Int)
  | hfloat (q : ℚ)
  | hbool (b : Bool)
  | hstr (s : String)
deriving DecidableEq, Repr

/-- `itoentity`: encode a host scalar as an `Entity` (the "not compatible"
default branch is unreachable for these four kinds). -/
def itoentity : HostVal → Value
  | .hint i => .vint i
  | .hfloat q => .vfloat q
  | .hbool b => .vbool b
  | .hstr s => .vstr s

/-- `Assign_var`: rebinding requires the same kind; a first binding requires
the name to classify as UNDET under `conv_arg`. -/
def Assign_var (vt : VarTable) (symbol : String) (value : HostVal) :
    Except Err VarTable :=
  let source := itoentity value
  match vt symbol with
  | some registered =>
    if registered.etype ≠ source.etype then
      .error (.runtime "Type ERROR: Type mismatch")
    else .ok (tupdate vt symbol source)
  | none =>
    if (conv_arg symbol).etype ≠ T_UNDET then
      .error (.runtime ("Type ERROR: Invalid symbol name " ++ symbol))
    else .ok (tupdate vt symbol source)

/-- `args[i]`: out of range is a Go slice-index panic (the assembler's arity
check makes it unreachable for compiled programs). -/
def getN (args : List Value) (i : Nat) : Except Err Value :=
  match args.get? i with
  | some v => .ok v
  | none => .error (.gopanic "runtime error: index out of range")

/-- Type assertion `.(int64)`. -/
def asInt : Value → Except Err Int
  | .vint i => .ok i
  | _ => .error (.gopanic "interface conversion")

/-- Type assertion `.(float64)`. -/
def asFloat : Value → Except Err ℚ
  | .vfloat q => .ok q
  | _ => .error (.gopanic "interface conversion")

/-- Type assertion `.(bool)`. -/
def asBool : Value → Except Err Bool
  | .vbool b => .ok b
  | _ => .error (.gopanic "interface conversion")

/-- Type assertion `.(string)`: `Get_argument` returns the text both for STR
and for LABEL values. -/
def asStr : Value → Except Err String
  | .vstr s => .ok s
  | .vlabel s => .ok s
  | _ => .error (.gopanic "interface conversion")

/-- Go conversion `int64(f)`: truncation toward zero.  (For values outside
the int64 range the Go conversion is implementation-defined; plain
truncation is used here, and no claim depends on that case.) -/
def go_f2i (q : ℚ) : Int := if q < 0 then ⌈q⌉ else ⌊q⌋

/-- `math.Pow` restricted to the rational model: integer exponents are
exact; a non-integer exponent is outside the model and stubbed as `0`
(`pow` is exercised by no claim below). -/
def go_pow (a b : ℚ) : ℚ := if b.den = 1 then a ^ b.num else 0

/-- `strconv.FormatInt(i, 10)`. -/
def go_formatInt (i : Int) : String :=
  if i < 0 then String.mk ('-' :: (natToDigitsAux (i.natAbs + 1) i.natAbs))
  else go_formatNat i.toNat

/-- `strconv.FormatFloat(f, 'f', -1, 64)` (shortest round-trip decimal):
outside the rational model; stubbed as the rational's text.  No claim
below reads a FLOAT's formatted text. -/
def go_formatFloat (q : ℚ) : String := toString q

/-- Resolve-result to host scalar, as the handlers' type assertions hand the
decoded value on to `Assign_var` (a LABEL decodes to its name string). -/
def toHost : Value → Except Err HostVal
  | .vint i => .ok (.hint i)
  | .vfloat q => .ok (.hfloat q)
  | .vbool b => .ok (.hbool b)
  | .vstr s => .ok (.hstr s)
  | .vlabel s => .ok (.hstr s)
  | .vundet _ => .error (.gopanic "interface conversion")

/-- `inst_nop`. -/
def inst_nop (st : VMState) (_args : List Value) : Except Err VMState := .ok st

/-- `inst_let`: destination bare symbol, then the value resolved with ANY. -/
def inst_let (st : VMState) (args : List Value) : Except Err VMState := do
  let a0 ← getN args 0
  let sym_name ← Get_baresymbol a0
  let a1 ← getN args 1
  let r ← Get_argument st.var_table a1 T_ANY
  let hv ← toHost r.1
  let vt ← Assign_var st.var_table sym_name hv
  pure { st with var_table := vt }

/-- `arb_calc`: both operands resolved (the second with the first's type),
widened to double (here `ℚ`), combined by the operator, then narrowed back
to INT unless the inputs were FLOAT or the operator was true division.
`div`/`div_r`/`mod` first test the widened second operand against zero;
`mod` then converts both operands with `int64(...)` and applies Go's `%`,
which panics when the truncated divisor is zero. -/
def arb_calc (st : VMState) (args : List Value) (operator : String) :
    Except Err VMState := do
  let a0 ← getN args 0
  let r0 ← Get_argument st.var_table a0 (T_INT ||| T_FLOAT)
  let a1 ← getN args 1
  let r1 ← Get_argument st.var_table a1 r0.2
  let ops : ℚ × ℚ ←
    if r0.2 = T_INT then do
      let ia ← asInt r0.1
      let ib ← asInt r1.1
      pure ((ia : ℚ), (ib : ℚ))
    else do
      let qa ← asFloat r0.1
      let qb ← asFloat r1.1
      pure (qa, qb)
  let res : Bool × ℚ ←
    match operator with
    | "+" => pure (false, ops.1 + ops.2)
    | "-" => pure (false, ops.1 - ops.2)
    | "*" => pure (false, ops.1 * ops.2)
    | "//" =>
      if ops.2 = 0 then .error (.runtime "Math ERROR: Division by zero")
      else pure (false, ((⌊ops.1 / ops.2⌋ : Int) : ℚ))
    | "/" =>
      if ops.2 = 0 then .error (.runtime "Math ERROR: Division by zero")
      else pure (true, ops.1 / ops.2)
    | "%" =>
      if ops.2 = 0 then .error (.runtime "Math ERROR: Division by zero")
      else
        if go_f2i ops.2 = 0 then
          .error (.gopanic "runtime error: integer divide by zero")
        else pure (false, ((Int.tmod (go_f2i ops.1) (go_f2i ops.2) : Int) : ℚ))
    | "**" => pure (false, go_pow ops.1 ops.2)
    | _ =>
      .error (.runtime ("System ERROR: Unknown operator " ++ operator ++
        " Possibly a bug in VM"))
  let ans : HostVal :=
    if r0.2 = T_INT ∧ res.1 = false then .hint (go_f2i res.2) else .hfloat res.2
  let a2 ← getN args 2
  let sym_name ← Get_baresymbol a2
  let vt ← Assign_var st.var_table sym_name ans
  pure { st with var_table := vt }

/-- `inst_cmp`: first operand with mask ANY minus BOOL minus LABEL, the
operator as STR, the third with the first's type; STR compares
lexicographically, the numeric kinds compare as doubles.  (The source's
unknown-operator messages, including their `oeprator` typo and the hex
formatting of the second branch, are reproduced up to `%x` rendering.) -/
def inst_cmp (st : VMState) (args : List Value) : Except Err VMState := do
  let a0 ← getN args 0
  let r0 ← Get_argument st.var_table a0 (T_ANY ^^^ T_BOOL ^^^ T_LABEL)
  let a1 ← getN args 1
  let r1 ← Get_argument st.var_table a1 T_STR
  let a2 ← getN args 2
  let r2 ← Get_argument st.var_table a2 r0.2
  let op ← asStr r1.1
  let source : Bool ←
    if r0.2 = T_STR then do
      let sa ← asStr r0.1
      let sc ← asStr r2.1
      match op with
      | ">" => pure (decide (sc < sa))
      | ">=" => pure (!decide (sa < sc))
      | "==" => pure (decide (sa = sc))
      | "<=" => pure (!decide (sc < sa))
      | "<" => pure (decide (sa < sc))
      | "!=" => pure (decide (sa ≠ sc))
      | _ => .error (.runtime ("Argument ERROR: Unknown oeprator " ++ op))
    else do
      let qp : ℚ × ℚ ←
        if r0.2 = T_INT then do
          let ia ← asInt r0.1
          let ic ← asInt r2.1
          pure ((ia : ℚ), (ic : ℚ))
        else do
          let qa ← asFloat r0.1
          let qc ← asFloat r2.1
          pure (qa, qc)
      match op with
      | ">" => pure (decide (qp.2 < qp.1))
      | ">=" => pure (decide (qp.2 ≤ qp.1))
      | "==" => pure (decide (qp.1 = qp.2))
      | "<=" => pure (decide (qp.1 ≤ qp.2))
      | "<" => pure (decide (qp.1 < qp.2))
      | "!=" => pure (decide (qp.1 ≠ qp.2))
      | _ => .error (.runtime ("Argument ERROR: Unknown oeprator " ++ op))
  let a3 ← getN args 3
  let sym_name ← Get_baresymbol a3
  let vt ← Assign_var st.var_table sym_name (.hbool source)
  pure { st with var_table := vt }

/-- `arb_bool`: both operands BOOL; `xor` is boolean inequality. -/
def arb_bool (st : VMState) (args : List Value) (operator : String) :
    Except Err VMState := do
  let a0 ← getN args 0
  let r0 ← Get_argument st.var_table a0 T_BOOL
  let a1 ← getN args 1
  let r1 ← Get_argument st.var_table a1 T_BOOL
  let ba ← asBool r0.1
  let bb ← asBool r1.1
  let source : Bool ←
    match operator with
    | "and" => pure (ba && bb)
    | "or" => pure (ba || bb)
    | "xor" => pure (ba != bb)
    | _ =>
      .error (.runtime ("System ERROR: Unknown operator " ++ operator ++
        " Possibly a bug in VM"))
  let a2 ← getN args 2
  let sym_name ← Get_baresymbol a2
  let vt ← Assign_var st.var_table sym_name (.hbool source)
  pure { st with var_table := vt }

/-- `inst_not`. -/
def inst_not (st : VMState) (args : List Value) : Except Err VMState := do
  let a0 ← getN args 0
  let r ← Get_argument st.var_table a0 T_BOOL
  let b ← asBool r.1
  let a1 ← getN args 1
  let sym_name ← Get_baresymbol a1
  let vt ← Assign_var st.var_table sym_name (.hbool !b)
  pure { st with var_table := vt }

/-- `inst_int`: operand with mask INT∪FLOAT; INT→INT warns and passes
through, FLOAT→INT truncates toward zero.  Destination is operand 0. -/
def inst_int (st : VMState) (args : List Value) : Except Err VMState := do
  let a1 ← getN args 1
  let r ← Get_argument st.var_table a1 (T_INT ||| T_FLOAT)
  let sw : Int × List String ←
    if r.2 = T_INT then do
      let i ← asInt r.1
      pure (i, ["Unnecessary cast T_INT->T_INT"])
    else do
      let q ← asFloat r.1
      pure (go_f2i q, [])
  let a0 ← getN args 0
  let sym_name ← Get_baresymbol a0
  let vt ← Assign_var st.var_table sym_name (.hint sw.1)
  pure { st with var_table := vt, warnings := st.warnings ++ sw.2 }

/-- `inst_float`: symmetric to `inst_int`. -/
def inst_float (st : VMState) (args : List Value) : Except Err VMState := do
  let a1 ← getN args 1
  let r ← Get_argument st.var_table a1 (T_INT ||| T_FLOAT)
  let sw : ℚ × List String ←
    if r.2 = T_FLOAT then do
      let q ← asFloat r.1
      pure (q, ["Unnecessary cast T_FLOAT->T_FLOAT"])
    else do
      let i ← asInt r.1
      pure ((i : ℚ), [])
  let a0 ← getN args 0
  let sym_name ← Get_baresymbol a0
  let vt ← Assign_var st.var_table sym_name (.hfloat sw.1)
  pure { st with var_table := vt, warnings := st.warnings ++ sw.2 }

/-- `inst_bool`: operand with mask ANY minus LABEL; INT/FLOAT nonzero, STR
nonempty, BOOL passthrough with a warning. -/
def inst_bool (st : VMState) (args : List Value) : Except Err VMState := do
  let a1 ← getN args 1
  let r ← Get_argument st.var_table a1 (T_ANY ^^^ T_LABEL)
  let sw : Bool × List String ←
    match r.1 with
    | .vint i => pure (decide (i ≠ 0), [])
    | .vfloat q => pure (decide (q ≠ 0), [])
    | .vbool b => pure (b, ["Unnecessary cast T_BOOL->T_BOOL"])
    | .vstr s => pure (decide (s ≠ ""), [])
    | _ => .error (.gopanic "interface conversion")
  let a0 ← getN args 0
  let sym_name ← Get_baresymbol a0
  let vt ← Assign_var st.var_table sym_name (.hbool sw.1)
  pure { st with var_table := vt, warnings := st.warnings ++ sw.2 }

/-- `inst_str`: operand with mask ANY minus LABEL; INT formats base-10,
FLOAT via shortest round-trip, STR warns and passes through.  The BOOL
branch of the source maps `true` to the string `"false"` and `false` to
`"true"` — the swap is reproduced here exactly as written (icestorm.go
lines 692-697). -/
def inst_str (st : VMState) (args : List Value) : Except Err VMState := do
  let a1 ← getN args 1
  let r ← Get_argument st.var_table a1 (T_ANY ^^^ T_LABEL)
  let sw : String × List String ←
    match r.1 with
    | .vint i => pure (go_formatInt i, [])
    | .vfloat q => pure (go_formatFloat q, [])
    | .vbool b => pure (if b then "false" else "true", [])
    | .vstr s => pure (s, ["Unnecessary cast T_STR->T_STR"])
    | _ => .error (.gopanic "interface conversion")
  let a0 ← getN args 0
  let sym_name ← Get_baresymbol a0
  let vt ← Assign_var st.var_table sym_name (.hstr sw.1)
  pure { st with var_table := vt, warnings := st.warnings ++ sw.2 }

/-- `inst_cat`. -/
def inst_cat (st : VMState) (args : List Value) : Except Err VMState := do
  let a0 ← getN args 0
  let r0 ← Get_argument st.var_table a0 T_STR
  let a1 ← getN args 1
  let r1 ← Get_argument st.var_table a1 T_STR
  let sa ← asStr r0.1
  let sb ← asStr r1.1
  let a2 ← getN args 2
  let sym_name ← Get_baresymbol a2
  let vt ← Assign_var st.var_table sym_name (.hstr (sa ++ sb))
  pure { st with var_table := vt }

/-- `inst_goto`: resolve the label operand, look it up, and set the program
counter to the label's index (the dispatch loop then increments it). -/
def inst_goto (st : VMState) (args : List Value) : Except Err VMState := do
  let a0 ← getN args 0
  let r ← Get_argument st.var_table a0 T_LABEL
  let name ← asStr r.1
  match st.label_table name with
  | none => .error (.runtime ("Argument ERROR: Unset label " ++ name))
  | some prog_idx => pure { st with exec_pos := prog_idx }

/-- `inst_when`: the label operand (operand 1) is resolved first, then the
condition (operand 0); the label is looked up — failing fatally when unset
— before the condition is consulted. -/
def inst_when (st : VMState) (args : List Value) : Except Err VMState := do
  let a1 ← getN args 1
  let r1 ← Get_argument st.var_table a1 T_LABEL
  let a0 ← getN args 0
  let r0 ← Get_argument st.var_table a0 T_BOOL
  let name ← asStr r1.1
  let criteria ← asBool r0.1
  match st.label_table name with
  | none => .error (.runtime ("Argument ERROR: Unset label " ++ name))
  | some prog_idx =>
    if criteria then pure { st with exec_pos := prog_idx } else pure st

/-- `inst_dump` prints the variable table; output is outside the model and
the state is unchanged. -/
def inst_dump (st : VMState) (_args : List Value) : Except Err VMState := .ok st

/-- Dispatch on mnemonic, mirroring the default `Inst_table` built by
`Init`.  A mnemonic absent from the table gives Go's zero-value
`InstructionDesc`, whose nil `Function` panics when called. -/
def exec_inst (st : VMState) (ins : Instruction) : Except Err VMState :=
  match ins.Inst with
  | "nop" => inst_nop st ins.Args
  | "let" => inst_let st ins.Args
  | "add" => arb_calc st ins.Args "+"
  | "sub" => arb_calc st ins.Args "-"
  | "mul" => arb_calc st ins.Args "*"
  | "div" => arb_calc st ins.Args "//"
  | "div_r" => arb_calc st ins.Args "/"
  | "mod" => arb_calc st ins.Args "%"
  | "pow" => arb_calc st ins.Args "**"
  | "cmp" => inst_cmp st ins.Args
  | "and" => arb_bool st ins.Args "and"
  | "or" => arb_bool st ins.Args "or"
  | "xor" => arb_bool st ins.Args "xor"
  | "not" => inst_not st ins.Args
  | "int" => inst_int st ins.Args
  | "float" => inst_float st ins.Args
  | "bool" => inst_bool st ins.Args
  | "str" => inst_str st ins.Args
  | "cat" => inst_cat st ins.Args
  | "goto" => inst_goto st ins.Args
  | "when" => inst_when st ins.Args
  | "dump" => inst_dump st ins.Args
  | _ => .error (.gopanic "runtime error: invalid memory address or nil pointer dereference")

/-- The dispatch loop: while the program counter is in range, fetch, invoke
the handler, then increment the counter.  Fuel bounds the number of
iterations; exhaustion models a program that loops past the bound (the
real loop has no timeout). -/
def run_loop : Nat → List Instruction → VMState → Except Err VMState
  | 0, _, _ => .error (.gopanic "out of fuel")
  | fuel + 1, prog, st =>
    match prog.get? st.exec_pos with
    | none => .ok st
    | some ins =>
      match exec_inst st ins with
      | .error e => .error e
      | .ok st' => run_loop fuel prog { st' with exec_pos := st'.exec_pos + 1 }

/-- `Run`: reset the program counter to 0, bind the program's label table
into the VM (the variable table is untouched), then enter the loop. -/
def Run (fuel : Nat) (st : VMState) (code : Bytecode) : Except Err VMState :=
  run_loop fuel code.inst_list
    { st with exec_pos := 0, label_table := code.label_table }

/-! ## Theorems about the claims -/

/-- A VM state with empty tables. -/
def vm0 : VMState := ⟨0, tempty, tempty, []⟩

/-- `int64(float64(i))` is the identity on the model's integers. -/
theorem go_f2i_intCast (i : Int) : go_f2i (i : ℚ) = i := by
  unfold go_f2i
  split
  · exact Int.ceil_intCast i
  · exact Int.floor_intCast i

/-- Unfolding `Get_argument` to its fuelled core. -/
theorem Get_argument_def (vt : VarTable) (v : Value) (mask : Nat) :
    Get_argument vt v mask = Get_argument_rec 8 vt v mask := rfl

/-- One step of resolution on a non-UNDET value: enforce the mask, return
the value with its type. -/
theorem Get_argument_rec_not_undet (fuel : Nat) (vt : VarTable) (v : Value)
    (mask : Nat) (h : ∀ s, v ≠ .vundet s) :
    Get_argument_rec (fuel + 1) vt v mask =
      if v.etype &&& mask = 0 then .error (.runtime "Type ERROR: Type mismatch")
      else .ok (v, v.etype) := by
  cases v <;> simp_all [Get_argument_rec]

/-- One step of resolution on an UNDET value bound in the table. -/
theorem Get_argument_rec_undet (fuel : Nat) (vt : VarTable) (s : String)
    (mask : Nat) (v : Value) (h : vt s = some v) :
    Get_argument_rec (fuel + 1) vt (.vundet s) mask =
      Get_argument_rec fuel vt v mask := by
  simp [Get_argument_rec, h]

/-- One step of resolution on an UNDET value missing from the table. -/
theorem Get_argument_rec_unbound (fuel : Nat) (vt : VarTable) (s : String)
    (mask : Nat) (h : vt s = none) :
    Get_argument_rec (fuel + 1) vt (.vundet s) mask =
      .error (.runtime ("Argument ERROR: Unbound symbol " ++ s)) := by
  simp [Get_argument_rec, h]

/-- C3: the claim says `str D, v` on a BOOL value renders `true` as the
string `"true"` and `false` as `"false"`; the code's branch is inverted
(icestorm.go lines 692-697), so `true` yields `"false"` and `false` yields
`"true"`.  This theorem evaluates the embedded handler at both inputs. -/
theorem c3_str_bool_is_swapped :
    (exec_inst vm0 ⟨"str", [.vundet "D", .vbool true]⟩).map
        (fun s => s.var_table "D") = .ok (some (.vstr "false")) ∧
    (exec_inst vm0 ⟨"str", [.vundet "D", .vbool false]⟩).map
        (fun s => s.var_table "D") = .ok (some (.vstr "true")) := by
  exact ⟨rfl, rfl⟩

/-- C9: `when cond, @L` resolves and looks up the label before consulting
the condition, so an unset label is a fatal "Unset label" error even when
the condition resolves to `false`. -/
theorem c9_when_unset_label_fatal_despite_false (st : VMState) (cArg : Value)
    (L : String)
    (hc : Get_argument st.var_table cArg T_BOOL = .ok (.vbool false, T_BOOL))
    (hL : st.label_table L = none) :
    exec_inst st ⟨"when", [cArg, .vlabel L]⟩ =
      .error (.runtime ("Argument ERROR: Unset label " ++ L)) := by
  have hlab : Get_argument st.var_table (.vlabel L) T_LABEL =
      .ok (.vlabel L, T_LABEL) := by
    rw [Get_argument_def, Get_argument_rec_not_undet]
    · simp [Value.etype, T_LABEL]
    · intro s hs
      exact Value.noConfusion hs
  simp only [exec_inst, inst_when, getN, List.get?, bind, Except.bind, hlab, hc,
    asStr, asBool, hL]

/-- Witness for C9 at a concrete state: empty label table, condition
literally `false`. -/
theorem c9_witness :
    exec_inst vm0 ⟨"when", [.vbool false, .vlabel "@x"]⟩ =
      .error (.runtime ("Argument ERROR: Unset label " ++ "@x")) :=
  c9_when_unset_label_fatal_despite_false vm0 (.vbool false) "@x" rfl rfl

/-- C7: `Assign_var` on a bound name succeeds exactly when the new value's
kind equals the bound kind (else "Type mismatch"); on an unbound name it
succeeds exactly when the name classifies as UNDET under `conv_arg`
(else "Invalid symbol name"). -/
theorem c7_assign_var_discipline (vt : VarTable) (name : String) (value : HostVal) :
    (∀ reg, vt name = some reg → reg.etype = (itoentity value).etype →
      Assign_var vt name value = .ok (tupdate vt name (itoentity value))) ∧
    (∀ reg, vt name = some reg → reg.etype ≠ (itoentity value).etype →
      Assign_var vt name value = .error (.runtime "Type ERROR: Type mismatch")) ∧
    (vt name = none → (conv_arg name).etype = T_UNDET →
      Assign_var vt name value = .ok (tupdate vt name (itoentity value))) ∧
    (vt name = none → (conv_arg name).etype ≠ T_UNDET →
      Assign_var vt name value =
        .error (.runtime ("Type ERROR: Invalid symbol name " ++ name))) := by
  refine ⟨?_, ?_, ?_, ?_⟩
  · intro reg h he
    simp [Assign_var, h, he]
  · intro reg h he
    simp [Assign_var, h, he]
  · intro h he
    simp [Assign_var, h, he]
  · intro h he
    simp [Assign_var, h, he]

/-- Witness for C7: inserting an INT under a fresh UNDET-classifying name
succeeds; the same bound name then rejects a BOOL with "Type mismatch". -/
theorem c7_witness :
    Assign_var tempty "x" (.hint 5) =
      .ok (tupdate tempty "x" (itoentity (.hint 5))) ∧
    Assign_var (tupdate tempty "x" (.vint 5)) "x" (.hbool true) =
      .error (.runtime "Type ERROR: Type mismatch") :=
  ⟨(c7_assign_var_discipline tempty "x" (.hint 5)).2.2.1 rfl (by decide),
   (c7_assign_var_discipline (tupdate tempty "x" (.vint 5)) "x"
      (.hbool true)).2.1 (.vint 5) rfl (by decide)⟩

/-- C8: `Run` enters the dispatch loop in a state whose label table is the
new program's and whose variable table is exactly the one the VM already
had, so a second `Run` on the same VM replaces the label table and
retains every binding; on an empty program the loop exits immediately
with that state. -/
theorem c8_run_swaps_labels_keeps_vars (fuel : Nat) (st : VMState)
    (code : Bytecode) :
    Run fuel st code =
      run_loop fuel code.inst_list
        { exec_pos := 0, label_table := code.label_table,
          var_table := st.var_table, warnings := st.warnings } ∧
    (code.inst_list = [] → ∀ f : Nat,
      Run (f + 1) st code =
        .ok { exec_pos := 0, label_table := code.label_table,
              var_table := st.var_table, warnings := st.warnings }) := by
  constructor
  · rfl
  · intro h f
    simp [Run, run_loop, h]

/-- Witness for C8: running an empty program over a VM that holds a binding
keeps the binding and installs the new label table. -/
theorem c8_witness :
    Run 1 ⟨3, tempty, tupdate tempty "x" (.vint 7), []⟩
        ⟨[], tupdate tempty "@z" 0⟩ =
      .ok { exec_pos := 0, label_table := tupdate tempty "@z" 0,
            var_table := tupdate tempty "x" (.vint 7), warnings := [] } :=
  (c8_run_swaps_labels_keeps_vars 1 ⟨3, tempty, tupdate tempty "x" (.vint 7), []⟩
    ⟨[], tupdate tempty "@z" 0⟩).2 rfl 0

/-- C6: `goto @L` with @L missing from the label table is the fatal
"Unset label" error; with @L defined the handler sets the program counter
to the label's index, and since the dispatch loop increments the counter
after every handler, the next executed instruction is the one at the
label's index + 1, immediately after the labelled `nop`. -/
theorem c6_goto_semantics (st : VMState) (L : String) :
    (st.label_table L = none →
      exec_inst st ⟨"goto", [.vlabel L]⟩ =
        .error (.runtime ("Argument ERROR: Unset label " ++ L))) ∧
    (∀ idx, st.label_table L = some idx →
      exec_inst st ⟨"goto", [.vlabel L]⟩ = .ok { st with exec_pos := idx } ∧
      ∀ (fuel : Nat) (prog : List Instruction),
        prog.get? st.exec_pos = some ⟨"goto", [.vlabel L]⟩ →
          run_loop (fuel + 1) prog st =
            run_loop fuel prog { st with exec_pos := idx + 1 }) := by
  have hlab : Get_argument st.var_table (.vlabel L) T_LABEL =
      .ok (.vlabel L, T_LABEL) := by
    rw [Get_argument_def, Get_argument_rec_not_undet]
    · simp [Value.etype, T_LABEL]
    · intro s hs
      exact Value.noConfusion hs
  constructor
  · intro h
    simp only [exec_inst, inst_goto, getN, List.get?, bind, Except.bind, hlab,
      asStr, h]
  · intro idx h
    have hexec : exec_inst st ⟨"goto", [.vlabel L]⟩ =
        .ok { st with exec_pos := idx } := by
      simp only [exec_inst, inst_goto, getN, List.get?, bind, Except.bind, hlab,
        asStr, h]
      rfl
    refine ⟨hexec, ?_⟩
    intro fuel prog hp
    simp only [run_loop, hp, hexec]

/-- A program with a labelled `nop` at index 1, for the C6 witness. -/
def c6prog : List Instruction := [⟨"goto", [.vlabel "@l"]⟩, ⟨"nop", []⟩, ⟨"nop", []⟩]

/-- A state whose label table binds `@l` to index 1, for the C6 witness. -/
def c6st : VMState := ⟨0, tupdate tempty "@l" 1, tempty, []⟩

/-- Witness for C6: jumping to the defined label `@l` (index 1) resumes the
loop at index 2, and the unset-label case fails on an empty table. -/
theorem c6_witness :
    exec_inst c6st ⟨"goto", [.vlabel "@l"]⟩ = .ok { c6st with exec_pos := 1 } ∧
    run_loop 2 c6prog c6st = run_loop 1 c6prog { c6st with exec_pos := 2 } ∧
    exec_inst vm0 ⟨"goto", [.vlabel "@l"]⟩ =
      .error (.runtime ("Argument ERROR: Unset label " ++ "@l")) :=
  ⟨((c6_goto_semantics c6st "@l").2 1 rfl).1,
   ((c6_goto_semantics c6st "@l").2 1 rfl).2 1 c6prog rfl,
   (c6_goto_semantics vm0 "@l").1 rfl⟩

/-- C10: the tokenizer's "Expected , before quote" error arises only when a
quote begins while bytes are already buffered outside any quoted region
(those buffered bytes are never quotes); a quote immediately after a
closed quoted token finds an empty buffer and opens a new token, so
`"a""b"` tokenizes into two STR operands with no failure. -/
theorem c10_quote_after_quote_reopens :
    (∀ (st : TokState) (c : Char) (e : Err), parse_args_step st c = .error e →
      st.d_quote = false ∧ st.s_quote = false ∧ st.buf ≠ [] ∧
        (c = dquoteC ∨ c = squoteC)) ∧
    parse_args (String.mk [dquoteC, 'a', dquoteC, dquoteC, 'b', dquoteC]) =
      .ok [.vstr "a", .vstr "b"] := by
  constructor
  · intro st c e h
    unfold parse_args_step at h
    by_cases hd : st.d_quote = true
    · rw [if_pos hd] at h
      split at h <;> simp at h
    · rw [if_neg hd] at h
      by_cases hs : st.s_quote = true
      · rw [if_pos hs] at h
        split at h <;> simp at h
      · rw [if_neg hs] at h
        by_cases hcm : c = ','
        · rw [if_pos hcm] at h
          split at h <;> simp at h
        · rw [if_neg hcm] at h
          by_cases hdq : c = dquoteC
          · rw [if_pos hdq] at h
            by_cases hbuf : st.buf.isEmpty
            · simp [hbuf] at h
            · exact ⟨Bool.not_eq_true _ ▸ by simpa using hd,
                Bool.not_eq_true _ ▸ by simpa using hs,
                fun hnil => hbuf (by simp [hnil]), Or.inl hdq⟩
          · rw [if_neg hdq] at h
            by_cases hsq : c = squoteC
            · rw [if_pos hsq] at h
              by_cases hbuf : st.buf.isEmpty
              · simp [hbuf] at h
              · exact ⟨Bool.not_eq_true _ ▸ by simpa using hd,
                  Bool.not_eq_true _ ▸ by simpa using hs,
                  fun hnil => hbuf (by simp [hnil]), Or.inr hsq⟩
            · rw [if_neg hsq] at h
              split at h <;> [skip; simp at h]
              split at h <;> simp at h
  · rfl

/-- Witness for C10's quantified part, at a state with a buffered byte and
an incoming double quote (the erroring configuration). -/
theorem c10_witness :
    (⟨[], ['x'], false, false, false⟩ : TokState).d_quote = false ∧
    (⟨[], ['x'], false, false, false⟩ : TokState).s_quote = false ∧
    (⟨[], ['x'], false, false, false⟩ : TokState).buf ≠ [] ∧
    (dquoteC = dquoteC ∨ dquoteC = squoteC) :=
  c10_quote_after_quote_reopens.1 ⟨[], ['x'], false, false, false⟩ dquoteC
    (.compile "Syntax ERROR: Expected , before \x22") rfl

/-- C4 counterexample: the claim says a non-comma, non-quote, non-space
byte right after a closed quoted token is appended to the token buffer;
in the code the `after_parentheses` guard discards it, so tokenizing
`"a"x` yields only the STR token `a` and never a token holding `x`. -/
theorem c4_counterexample :
    parse_args (String.mk [dquoteC, 'a', dquoteC, 'x']) = .ok [.vstr "a"] ∧
    ([Value.vstr "a"] : List Value) ≠ [.vstr "a", .vundet "x"] := by
  exact ⟨rfl, by decide⟩

/-- C4 (amended): outside any quoted region, a byte that is not a comma,
quote, or space is appended to the token buffer only when the
`after_parentheses` flag is clear; immediately after a closed quoted
token the flag is set and the byte is discarded, the state unchanged. -/
theorem c4_unquoted_byte_append (st : TokState) (c : Char)
    (hd : st.d_quote = false) (hs : st.s_quote = false)
    (hc : c ≠ ',' ∧ c ≠ dquoteC ∧ c ≠ squoteC ∧ c ≠ ' ') :
    parse_args_step st c =
      .ok (if st.after_parentheses then st
           else { st with buf := st.buf ++ [c] }) := by
  cases hap : st.after_parentheses <;>
    simp [parse_args_step, hap, hd, hs, hc.1, hc.2.1, hc.2.2.1, hc.2.2.2]

/-- Witness for C4's amended rule: with the flag set, the byte `x` after a
closed quoted token leaves the tokenizer state unchanged; with it clear,
`x` is buffered. -/
theorem c4_witness :
    parse_args_step ⟨[.vstr "a"], [], false, false, true⟩ 'x' =
      .ok (if (⟨[.vstr "a"], [], false, false, true⟩ : TokState).after_parentheses
           then ⟨[.vstr "a"], [], false, false, true⟩
           else { (⟨[.vstr "a"], [], false, false, true⟩ : TokState) with
                    buf := [] ++ ['x'] }) :=
  c4_unquoted_byte_append ⟨[.vstr "a"], [], false, false, true⟩ 'x' rfl rfl
    (by refine ⟨?_, ?_, ?_, ?_⟩ <;> decide)

/-- C2 counterexample: with INT 1 stored in `x`, running `str D, x` and then
`int D2, D` does not restore 1 into D2 — the second instruction aborts
with the fatal "Type mismatch", because `int` resolves its operand with
mask INT∪FLOAT and D now holds a STR. -/
theorem c2_counterexample :
    ((exec_inst ⟨0, tempty, tupdate tempty "x" (.vint 1), []⟩
        ⟨"str", [.vundet "D", .vundet "x"]⟩).bind
      (fun s1 => exec_inst s1 ⟨"int", [.vundet "D2", .vundet "D"]⟩)) =
      .error (.runtime "Type ERROR: Type mismatch") := rfl

/-- C2 (amended): for any INT value i stored in a variable, `str D, i`
succeeds and binds D to the base-10 string of i; the following
`int D2, D` then fails fatally with "Type mismatch" (`int` accepts only
INT or FLOAT operands), so the conversion does not round-trip. -/
theorem c2_str_int_no_roundtrip (i : Int) (st : VMState)
    (hx : st.var_table "x" = some (.vint i))
    (hD : st.var_table "D" = none) :
    ∃ st1, exec_inst st ⟨"str", [.vundet "D", .vundet "x"]⟩ = .ok st1 ∧
      st1.var_table "D" = some (.vstr (go_formatInt i)) ∧
      exec_inst st1 ⟨"int", [.vundet "D2", .vundet "D"]⟩ =
        .error (.runtime "Type ERROR: Type mismatch") := by
  have h1 : Get_argument st.var_table (.vundet "x") (T_ANY ^^^ T_LABEL) =
      .ok (.vint i, T_INT) := by
    rw [Get_argument_def, Get_argument_rec_undet 7 _ _ _ _ hx,
      Get_argument_rec_not_undet]
    · simp [Value.etype, T_INT, T_ANY, T_LABEL]
    · intro s hs
      exact Value.noConfusion hs
  have hconv : (conv_arg "D").etype = T_UNDET := by decide
  have hassign : Assign_var st.var_table "D" (.hstr (go_formatInt i)) =
      .ok (tupdate st.var_table "D" (.vstr (go_formatInt i))) := by
    simp [Assign_var, hD, hconv, itoentity]
  refine ⟨{ st with
      var_table := tupdate st.var_table "D" (.vstr (go_formatInt i)),
      warnings := st.warnings ++ [] }, ?_, ?_, ?_⟩
  · simp only [exec_inst, inst_str, getN, List.get?, bind, Except.bind, pure,
      Except.pure, h1, Get_baresymbol, hassign]
  · simp [tupdate]
  · have h2 : Get_argument (tupdate st.var_table "D" (.vstr (go_formatInt i)))
        (.vundet "D") (T_INT ||| T_FLOAT) =
        .error (.runtime "Type ERROR: Type mismatch") := by
      rw [Get_argument_def,
        Get_argument_rec_undet 7 _ _ _ (.vstr (go_formatInt i)) (by simp [tupdate]),
        Get_argument_rec_not_undet]
      · simp only [Value.etype]
        rw [if_pos (by decide)]
      · intro s hs
        exact Value.noConfusion hs
    simp only [exec_inst, inst_int, getN, List.get?, bind, Except.bind, h2]

/-- Witness for C2's amended statement at i = 1 over a fresh VM. -/
theorem c2_witness :
    ∃ st1, exec_inst ⟨0, tempty, tupdate tempty "x" (.vint 1), []⟩
        ⟨"str", [.vundet "D", .vundet "x"]⟩ = .ok st1 ∧
      st1.var_table "D" = some (.vstr (go_formatInt 1)) ∧
      exec_inst st1 ⟨"int", [.vundet "D2", .vundet "D"]⟩ =
        .error (.runtime "Type ERROR: Type mismatch") :=
  c2_str_int_no_roundtrip 1 ⟨0, tempty, tupdate tempty "x" (.vint 1), []⟩
    (by decide) (by decide)

/-- Looking up the key just written. -/
theorem tupdate_self {α : Type} (m : String → Option α) (k : String) (v : α) :
    tupdate m k v k = some v := by
  simp [tupdate]

/-- Inserting under an unbound, UNDET-classifying name succeeds. -/
theorem Assign_var_insert (vt : VarTable) (d : String) (hv : HostVal)
    (hd : vt d = none) (hdu : (conv_arg d).etype = T_UNDET) :
    Assign_var vt d hv = .ok (tupdate vt d (itoentity hv)) := by
  simp [Assign_var, hd, hdu]

/-- Resolving a direct INT operand under a mask containing the INT bit. -/
theorem Get_argument_vint_ok (vt : VarTable) (x : Int) (mask : Nat)
    (h : ¬ T_INT &&& mask = 0) :
    Get_argument vt (.vint x) mask = .ok (.vint x, T_INT) := by
  rw [Get_argument_def,
    Get_argument_rec_not_undet _ _ _ _ (fun s hs => Value.noConfusion hs)]
  simp only [Value.etype]
  rw [if_neg h]

/-- Resolving a direct FLOAT operand under a mask containing the FLOAT bit. -/
theorem Get_argument_vfloat_ok (vt : VarTable) (x : ℚ) (mask : Nat)
    (h : ¬ T_FLOAT &&& mask = 0) :
    Get_argument vt (.vfloat x) mask = .ok (.vfloat x, T_FLOAT) := by
  rw [Get_argument_def,
    Get_argument_rec_not_undet _ _ _ _ (fun s hs => Value.noConfusion hs)]
  simp only [Value.etype]
  rw [if_neg h]

/-- Resolving a direct INT operand with mask INT∪FLOAT. -/
theorem GA_i3 (vt : VarTable) (x : Int) :
    Get_argument vt (.vint x) (T_INT ||| T_FLOAT) = .ok (.vint x, T_INT) :=
  Get_argument_vint_ok _ _ _ (by decide)

/-- Resolving a direct INT operand with mask INT. -/
theorem GA_i1 (vt : VarTable) (x : Int) :
    Get_argument vt (.vint x) T_INT = .ok (.vint x, T_INT) :=
  Get_argument_vint_ok _ _ _ (by decide)

/-- Resolving a direct FLOAT operand with mask INT∪FLOAT. -/
theorem GA_f3 (vt : VarTable) (x : ℚ) :
    Get_argument vt (.vfloat x) (T_INT ||| T_FLOAT) = .ok (.vfloat x, T_FLOAT) :=
  Get_argument_vfloat_ok _ _ _ (by decide)

/-- Resolving a direct FLOAT operand with mask FLOAT. -/
theorem GA_f2 (vt : VarTable) (x : ℚ) :
    Get_argument vt (.vfloat x) T_FLOAT = .ok (.vfloat x, T_FLOAT) :=
  Get_argument_vfloat_ok _ _ _ (by decide)

/-- The INT tag equals itself (rewriting aid). -/
theorem tint_eq : (T_INT = T_INT) = True := by simp

/-- The FLOAT tag differs from the INT tag (rewriting aid). -/
theorem tfloat_ne : (T_FLOAT = T_INT) = False := by simp [T_FLOAT, T_INT]

/-- C1 counterexample: `mod` with FLOAT operands 1.0 and 0.5 has a nonzero
second resolved operand, yet it does not complete and assign — the zero
guard passes, `int64(0.5)` truncates to 0, and Go's integer `%` panics
with "integer divide by zero". -/
theorem c1_counterexample :
    exec_inst vm0 ⟨"mod", [.vfloat 1, .vfloat (1 / 2), .vundet "d"]⟩ =
      .error (.gopanic "runtime error: integer divide by zero") := by
  have h2 : go_f2i ((1 : ℚ) / 2) = 0 := by
    unfold go_f2i
    rw [if_neg (by norm_num)]
    exact Int.floor_eq_zero_iff.mpr (by constructor <;> norm_num)
  have hz : ((1 : ℚ) / 2) ≠ 0 := by norm_num
  simp only [exec_inst, arb_calc, getN, List.get?, bind, Except.bind, pure,
    Except.pure, GA_f3, GA_f2, asFloat, if_neg hz, if_pos h2, tfloat_ne,
    if_false, ite_false]

/-- C1 (amended): for `div`, `div_r`, `mod`, a zero second resolved operand
(INT or FLOAT) is the fatal "Division by zero"; a nonzero second operand
completes and assigns a result to the destination, except for `mod` with
FLOAT operands whose divisor truncates to int64 zero (0 < |b| < 1), where
Go's integer modulus panics instead. -/
theorem c1_div_zero_guard (st : VMState) (d op : String)
    (hop : op = "div" ∨ op = "div_r" ∨ op = "mod")
    (hd : st.var_table d = none) (hdu : (conv_arg d).etype = T_UNDET) :
    (∀ ia ib : Int,
      (ib = 0 → exec_inst st ⟨op, [.vint ia, .vint ib, .vundet d]⟩ =
        .error (.runtime "Math ERROR: Division by zero")) ∧
      (ib ≠ 0 → ∃ st' v,
        exec_inst st ⟨op, [.vint ia, .vint ib, .vundet d]⟩ = .ok st' ∧
          st'.var_table d = some v)) ∧
    (∀ qa qb : ℚ,
      (qb = 0 → exec_inst st ⟨op, [.vfloat qa, .vfloat qb, .vundet d]⟩ =
        .error (.runtime "Math ERROR: Division by zero")) ∧
      (qb ≠ 0 → (op = "mod" → go_f2i qb ≠ 0) → ∃ st' v,
        exec_inst st ⟨op, [.vfloat qa, .vfloat qb, .vundet d]⟩ = .ok st' ∧
          st'.var_table d = some v) ∧
      (qb ≠ 0 → op = "mod" → go_f2i qb = 0 →
        exec_inst st ⟨op, [.vfloat qa, .vfloat qb, .vundet d]⟩ =
          .error (.gopanic "runtime error: integer divide by zero"))) := by
  have hAs : ∀ hv : HostVal, Assign_var st.var_table d hv =
      .ok (tupdate st.var_table d (itoentity hv)) :=
    fun hv => Assign_var_insert _ _ _ hd hdu
  rcases hop with h | h | h <;> subst h <;>
    refine ⟨fun ia ib => ⟨?_, ?_⟩, fun qa qb => ⟨?_, ?_, ?_⟩⟩
  · intro hz
    subst hz
    simp only [exec_inst, arb_calc, getN, List.get?, bind, Except.bind, pure,
      Except.pure, GA_i3, GA_i1, asInt, tint_eq, if_true, Int.cast_zero,
      ite_true, if_pos rfl]
  · intro hz
    have hz' : (ib : ℚ) ≠ 0 := Int.cast_ne_zero.mpr hz
    simp only [exec_inst, arb_calc, getN, List.get?, bind, Except.bind, pure,
      Except.pure, GA_i3, GA_i1, asInt, if_neg hz', Get_baresymbol, hAs,
      tint_eq, tfloat_ne, if_true, if_false, and_true, and_false, ite_true,
      ite_false]
    refine ⟨_, _, rfl, tupdate_self _ _ _⟩
  · intro hz
    subst hz
    simp only [exec_inst, arb_calc, getN, List.get?, bind, Except.bind, pure,
      Except.pure, GA_f3, GA_f2, asFloat, tfloat_ne, if_false, ite_false,
      if_pos rfl]
    simp
  · intro hz _
    simp only [exec_inst, arb_calc, getN, List.get?, bind, Except.bind, pure,
      Except.pure, GA_f3, GA_f2, asFloat, if_neg hz, Get_baresymbol, hAs,
      tint_eq, tfloat_ne, if_true, if_false, and_true, and_false, ite_true,
      ite_false]
    refine ⟨_, _, rfl, tupdate_self _ _ _⟩
  · intro _ h _
    exact absurd h (by decide)
  · intro hz
    subst hz
    simp only [exec_inst, arb_calc, getN, List.get?, bind, Except.bind, pure,
      Except.pure, GA_i3, GA_i1, asInt, tint_eq, if_true, Int.cast_zero,
      ite_true, if_pos rfl]
  · intro hz
    have hz' : (ib : ℚ) ≠ 0 := Int.cast_ne_zero.mpr hz
    simp only [exec_inst, arb_calc, getN, List.get?, bind, Except.bind, pure,
      Except.pure, GA_i3, GA_i1, asInt, if_neg hz', Get_baresymbol, hAs,
      tint_eq, tfloat_ne, if_true, if_false, and_true, and_false, ite_true,
      ite_false]
    refine ⟨_, _, rfl, tupdate_self _ _ _⟩
  · intro hz
    subst hz
    simp only [exec_inst, arb_calc, getN, List.get?, bind, Except.bind, pure,
      Except.pure, GA_f3, GA_f2, asFloat, tfloat_ne, if_false, ite_false,
      if_pos rfl]
    simp
  · intro hz _
    simp only [exec_inst, arb_calc, getN, List.get?, bind, Except.bind, pure,
      Except.pure, GA_f3, GA_f2, asFloat, if_neg hz, Get_baresymbol, hAs,
      tint_eq, tfloat_ne, if_true, if_false, and_true, and_false, ite_true,
      ite_false]
    refine ⟨_, _, rfl, tupdate_self _ _ _⟩
  · intro _ h _
    exact absurd h (by decide)
  · intro hz
    subst hz
    simp only [exec_inst, arb_calc, getN, List.get?, bind, Except.bind, pure,
      Except.pure, GA_i3, GA_i1, asInt, tint_eq, if_true, Int.cast_zero,
      ite_true, if_pos rfl]
  · intro hz
    have hz' : (ib : ℚ) ≠ 0 := Int.cast_ne_zero.mpr hz
    have hz2 : ¬ go_f2i ((ib : Int) : ℚ) = 0 := by
      rw [go_f2i_intCast]
      exact_mod_cast hz
    simp only [exec_inst, arb_calc, getN, List.get?, bind, Except.bind, pure,
      Except.pure, GA_i3, GA_i1, asInt, if_neg hz', if_neg hz2, Get_baresymbol,
      hAs, tint_eq, tfloat_ne, if_true, if_false, and_true, and_false,
      ite_true, ite_false]
    refine ⟨_, _, rfl, tupdate_self _ _ _⟩
  · intro hz
    subst hz
    simp only [exec_inst, arb_calc, getN, List.get?, bind, Except.bind, pure,
      Except.pure, GA_f3, GA_f2, asFloat, tfloat_ne, if_false, ite_false,
      if_pos rfl]
    simp
  · intro hz hnp
    have hz2 : ¬ go_f2i qb = 0 := hnp rfl
    simp only [exec_inst, arb_calc, getN, List.get?, bind, Except.bind, pure,
      Except.pure, GA_f3, GA_f2, asFloat, if_neg hz, if_neg hz2, Get_baresymbol,
      hAs, tint_eq, tfloat_ne, if_true, if_false, and_true, and_false,
      ite_true, ite_false]
    refine ⟨_, _, rfl, tupdate_self _ _ _⟩
  · intro hz _ h0
    simp only [exec_inst, arb_calc, getN, List.get?, bind, Except.bind, pure,
      Except.pure, GA_f3, GA_f2, asFloat, if_neg hz, if_pos h0, tfloat_ne,
      if_false, ite_false]

/-- Witness for C1's amended statement: `div 7, 2, d` with INT operands
(nonzero divisor) completes and binds d; `div 7, 0, d` is the fatal
division-by-zero error. -/
theorem c1_witness :
    ((2 : Int) ≠ 0 ∧ ∃ st' v,
      exec_inst vm0 ⟨"div", [.vint 7, .vint 2, .vundet "d"]⟩ = .ok st' ∧
        st'.var_table "d" = some v) ∧
    exec_inst vm0 ⟨"div", [.vint 7, .vint 0, .vundet "d"]⟩ =
      .error (.runtime "Math ERROR: Division by zero") :=
  ⟨⟨by decide,
    ((c1_div_zero_guard vm0 "d" "div" (Or.inl rfl) rfl (by decide)).1 7 2).2
      (by decide)⟩,
   ((c1_div_zero_guard vm0 "d" "div" (Or.inl rfl) rfl (by decide)).1 7 0).1 rfl⟩

/-- Every entry of the label pass's table either came from the initial
table or records the index of a label-defining instruction. -/
theorem set_labels_table_spec (prog : List Instruction) :
    ∀ (i0 : Nat) (tbl : LabelTable) (L : String) (j : Nat),
      set_labels_table prog i0 tbl L = some j →
      tbl L = some j ∨ ∃ k ins, prog.get? k = some ins ∧ j = i0 + k ∧
        headIs ins.Inst '@' = true := by
  induction prog with
  | nil =>
    intro i0 tbl L j h
    exact Or.inl h
  | cons ins rest ih =>
    intro i0 tbl L j h
    unfold set_labels_table at h
    by_cases hat : headIs ins.Inst '@' = true
    · rw [if_pos hat] at h
      rcases ih (i0 + 1) (tupdate tbl ins.Inst i0) L j h with h' |
        ⟨k, ins', hk, hj, hats⟩
      · unfold tupdate at h'
        by_cases hL : L = ins.Inst
        · rw [if_pos hL] at h'
          right
          refine ⟨0, ins, by simp, ?_, hat⟩
          injection h' with h''
          omega
        · rw [if_neg hL] at h'
          exact Or.inl h'
      · right
        exact ⟨k + 1, ins', by simpa using hk, by omega, hats⟩
    · rw [if_neg hat] at h
      rcases ih (i0 + 1) tbl L j h with h' | ⟨k, ins', hk, hj, hats⟩
      · exact Or.inl h'
      · right
        exact ⟨k + 1, ins', by simpa using hk, by omega, hats⟩

/-- C5: in every program compiled by `Gen_bytecode`, every index in the
label table points at an instruction whose mnemonic is `nop` (the label
pass rewrites each label-defining line to `nop` as it records it). -/
theorem c5_labels_point_to_nop (tbl : String → Option Nat) (script : String)
    (bc : Bytecode) (h : Gen_bytecode tbl script = .ok bc)
    (L : String) (i : Nat) (hL : bc.label_table L = some i) :
    ∃ ins, bc.inst_list.get? i = some ins ∧ ins.Inst = "nop" := by
  unfold Gen_bytecode at h
  cases hps : parse_script tbl script with
  | error e =>
    rw [hps] at h
    exact Except.noConfusion h
  | ok p =>
    rw [hps] at h
    cases h
    unfold parse_script at hps
    dsimp only [] at hps
    cases hfold : (splitLines script).foldlM
        (fun prog line =>
          parse_oneline tbl (String.mk (line.toList.dropWhile trimLeadC)) prog)
        ([] : List Instruction) with
    | error e =>
      rw [hfold] at hps
      simp only [bind, Except.bind] at hps
      exact Except.noConfusion hps
    | ok prog =>
      rw [hfold] at hps
      simp only [bind, Except.bind, pure, Except.pure] at hps
      cases hps
      rcases set_labels_table_spec prog 0 tempty L i hL with h' |
        ⟨k, ins, hk, hik, hat⟩
      · exact Option.noConfusion h'
      · refine ⟨{ ins with Inst := "nop" }, ?_, rfl⟩
        have hik' : i = k := by omega
        subst hik'
        rw [List.get?_eq_getElem?] at hk
        simp only [set_labels, List.getElem?_map, List.get?_eq_getElem?]
        rw [hk]
        simp [hat]

/-- Witness for C5 at the one-line script `@a`, which compiles to a single
`nop` with `@a` bound to index 0. -/
theorem c5_witness :
    ∃ ins, ([⟨"nop", []⟩] : List Instruction).get? 0 = some ins ∧
      ins.Inst = "nop" :=
  c5_labels_point_to_nop default_inst_table "@a"
    ⟨[⟨"nop", []⟩], tupdate tempty "@a" 0⟩ rfl "@a" 0 rfl

end Icestorm
